import Mathlib

/-!
Verification of the appointment scheduling and conflict-resolution core of the
dern_backend repository: a shallow embedding of the appointment routes
(`checkTechnicianAvailability`, create / update / cancel handlers), the mongoose
appointment schema validation, and the technician availability slot calculator,
together with theorems about the stated properties (no double booking, overlap
predicate, terminal-state immutability, cancellation window, duration
derivation, slot marking, day-intersection fetch).

Timestamps are modelled as integer epoch milliseconds (`Int`, or `Nat` for the
slot calculator which only reads nonnegative `Date` values); document ids are
`Nat`. Handlers are modelled after Joi body validation, so a request value is
whatever the route handler can receive. Failures are typed (`Except`); an error
result performs no write, so "the appointment is left unchanged" holds by
construction for every failing operation.
-/

namespace DernBackend

inductive Role
  | customer
  | technician
  | admin
deriving DecidableEq, Repr

inductive Availability
  | available
  | busy
  | offline
deriving DecidableEq, Repr

/-- `status` enum of the appointment schema:
`["scheduled", "in-progress", "completed", "canceled", "no-show"]`. -/
inductive Status
  | scheduled
  | inProgress
  | completed
  | canceled
  | noShow
deriving DecidableEq, Repr

inductive ServiceType
  | consultation
  | repair
  | installation
  | maintenance
  | troubleshooting
  | emergency
deriving DecidableEq, Repr

inductive Priority
  | low
  | medium
  | high
  | urgent
deriving DecidableEq, Repr

/-- The slice of the User document the scheduling core reads. -/
structure User where
  id : Nat
  role : Role
  isActive : Bool
  availability : Availability
deriving DecidableEq, Repr

/-- The appointment document (fields of `appointmentSchema` read or written by the
appointment routes; `location` is omitted — it is stored but never inspected by
the modelled logic). -/
structure Appointment where
  id : Nat
  client : Nat
  technician : Nat
  startTime : Int
  endTime : Int
  status : Status
  serviceType : ServiceType
  priority : Priority
  estimatedDuration : Option Int
  actualDuration : Option Int
  cost : Option Int
  notes : Option String
  cancellationReason : Option String
  completionNotes : Option String
  rating : Option Int
  feedback : Option String
  canceledAt : Option Int
  canceledBy : Option Nat
deriving DecidableEq, Repr

/-- The persistent store: the users and appointments collections. -/
structure DB where
  users : List User
  appointments : List Appointment
deriving DecidableEq, Repr

/-- The authenticated caller (`req.user`). -/
structure Actor where
  userId : Nat
  role : Role
deriving DecidableEq, Repr

/-- `User.findOne({ _id: technicianId, role: "technician", isActive: true })`. -/
def findTechnician (db : DB) (technicianId : Nat) : Option User :=
  db.users.find? fun u =>
    decide (u.id = technicianId ∧ u.role = Role.technician ∧ u.isActive = true)

/-- `status: { $nin: ["canceled", "completed"] }` — the filter selecting the
appointments the conflict checker and the availability fetch treat as active. -/
def statusNotCanceledCompleted : Status → Bool
  | Status.canceled => false
  | Status.completed => false
  | _ => true

/-- The mongo `conflictQuery` of `checkTechnicianAvailability`: technician match,
active status, the `$or` overlap case `startTime: { $lt: endTime }, endTime:
{ $gt: startTime }` against the candidate interval, and the optional
`_id: { $ne: excludeAppointmentId }`. -/
def conflictMatches (technicianId : Nat) (startTime endTime : Int)
    (excludeAppointmentId : Option Nat) (a : Appointment) : Bool :=
  decide (a.technician = technicianId)
    && statusNotCanceledCompleted a.status
    && decide (a.startTime < endTime)
    && decide (a.endTime > startTime)
    && (match excludeAppointmentId with
        | some ex => decide (a.id ≠ ex)
        | none => true)

/-- Typed failures of `checkTechnicianAvailability` (the route throws `Error`s
with distinct messages; the conflict error reports the first conflicting
appointment's interval). -/
inductive CheckError
  | technicianNotFound
  | technicianUnavailable
  | schedulingConflict (conflictStart conflictEnd : Int)
deriving DecidableEq, Repr

/-- `checkTechnicianAvailability(technicianId, startTime, endTime,
excludeAppointmentId)`: resolve an active technician, require the `available`
flag, and fail on the first appointment matching `conflictQuery`. -/
def checkTechnicianAvailability (db : DB) (technicianId : Nat)
    (startTime endTime : Int) (excludeAppointmentId : Option Nat) :
    Except CheckError User :=
  match findTechnician db technicianId with
  | none => Except.error CheckError.technicianNotFound
  | some technician =>
    if technician.availability ≠ Availability.available then
      Except.error CheckError.technicianUnavailable
    else
      match db.appointments.filter
          (conflictMatches technicianId startTime endTime excludeAppointmentId) with
      | [] => Except.ok technician
      | conflict :: _ =>
          Except.error (CheckError.schedulingConflict conflict.startTime conflict.endTime)

/-- `Math.round(timeDiff / (1000 * 60))`: on the nonnegative millisecond
differences the routes produce (`endTime > startTime` is enforced before any
persisted value is read), `Math.round x = ⌊x + 1/2⌋`, i.e. floor division
`(diffMs + 30000) / 60000`. -/
def msToMinutesRounded (diffMs : Int) : Int :=
  (diffMs + 30000) / 60000

/-- The body of `POST /` after Joi validation of `createAppointmentSchema`
(`location` omitted as unread; Joi guarantees `endTime > startTime` and a
supplied `estimatedDuration` in `[15, 480]`, but nothing here relies on that). -/
structure CreateRequest where
  technicianId : Nat
  startTime : Int
  endTime : Int
  notes : Option String
  serviceType : ServiceType
  priority : Option Priority
  estimatedDuration : Option Int
deriving DecidableEq, Repr

/-- The mongoose-schema validation `appointment.save()` runs on the fields this
model tracks: `endTime > startTime`, `estimatedDuration` in `[15, 480]`,
`cost ≥ 0`, `rating` in `[1, 5]` (each numeric bound only when the field is
set, matching mongoose validators). -/
def validateAppointment (a : Appointment) : Bool :=
  decide (a.endTime > a.startTime)
    && (match a.estimatedDuration with
        | none => true
        | some d => decide (15 ≤ d ∧ d ≤ 480))
    && (match a.cost with
        | none => true
        | some c => decide (0 ≤ c))
    && (match a.rating with
        | none => true
        | some r => decide (1 ≤ r ∧ r ≤ 5))

inductive CreateError
  | check (e : CheckError)
  | validationFailed
deriving DecidableEq, Repr

/-- The `new Appointment({...})` document built by the create route: status
`scheduled`, priority defaulted to `medium`, and `estimatedDuration` derived
from the interval when not supplied (a supplied value passed Joi's `[15, 480]`
bound and in particular is truthy, so the JS `if (!duration)` is exactly the
absent case). -/
def newAppointmentDoc (newId clientId : Nat) (req : CreateRequest) : Appointment :=
  { id := newId
    client := clientId
    technician := req.technicianId
    startTime := req.startTime
    endTime := req.endTime
    status := Status.scheduled
    serviceType := req.serviceType
    priority := req.priority.getD Priority.medium
    estimatedDuration := some (match req.estimatedDuration with
      | some d => d
      | none => msToMinutesRounded (req.endTime - req.startTime))
    actualDuration := none
    cost := none
    notes := req.notes
    cancellationReason := none
    completionNotes := none
    rating := none
    feedback := none
    canceledAt := none
    canceledBy := none }

/-- `POST /` (create appointment): run `checkTechnicianAvailability` with no
exclusion, build the document, and persist it (`appointment.save()` validates
the schema). `newId` is the id the store assigns to the new document. -/
def createAppointment (db : DB) (newId clientId : Nat) (req : CreateRequest) :
    Except CreateError (DB × Appointment) :=
  match checkTechnicianAvailability db req.technicianId req.startTime req.endTime none with
  | Except.error e => Except.error (CreateError.check e)
  | Except.ok _ =>
    let appointment := newAppointmentDoc newId clientId req
    if validateAppointment appointment then
      Except.ok ({ users := db.users, appointments := appointment :: db.appointments },
        appointment)
    else
      Except.error CreateError.validationFailed

/-- The body of `PUT /:appointmentId` after Joi validation of
`updateAppointmentSchema`: every allow-listed field is optional (`location`
omitted as unread). -/
structure UpdateRequest where
  startTime : Option Int
  endTime : Option Int
  notes : Option String
  serviceType : Option ServiceType
  priority : Option Priority
  status : Option Status
  estimatedDuration : Option Int
  actualDuration : Option Int
  cost : Option Int
  cancellationReason : Option String
  completionNotes : Option String
  rating : Option Int
  feedback : Option String
deriving DecidableEq, Repr

inductive UpdateError
  | notFound
  | accessDenied
  | immutableState
  | startTimeNotFuture
  | check (e : CheckError)
  | validationFailed
deriving DecidableEq, Repr

/-- `Appointment.findById(appointmentId)`. -/
def findAppointment (db : DB) (appointmentId : Nat) : Option Appointment :=
  db.appointments.find? fun a => decide (a.id = appointmentId)

/-- The permission check shared by the single-appointment routes: admin, or the
appointment's client, or its technician. -/
def hasAccess (actor : Actor) (a : Appointment) : Bool :=
  decide (actor.role = Role.admin)
    || decide (a.client = actor.userId)
    || decide (a.technician = actor.userId)

/-- A request field overwrites the stored optional field when present
(`if (req.body[field] !== undefined) appointment[field] = req.body[field]`). -/
def setOpt {α : Type} (newVal oldVal : Option α) : Option α :=
  match newVal with
  | some v => some v
  | none => oldVal

/-- The `allowedUpdates.forEach` block of the update route: each allow-listed
field present in the body overwrites the stored field. -/
def applyUpdates (a : Appointment) (req : UpdateRequest) : Appointment :=
  { a with
    startTime := req.startTime.getD a.startTime
    endTime := req.endTime.getD a.endTime
    notes := setOpt req.notes a.notes
    serviceType := req.serviceType.getD a.serviceType
    priority := req.priority.getD a.priority
    status := req.status.getD a.status
    estimatedDuration := setOpt req.estimatedDuration a.estimatedDuration
    actualDuration := setOpt req.actualDuration a.actualDuration
    cost := setOpt req.cost a.cost
    cancellationReason := setOpt req.cancellationReason a.cancellationReason
    completionNotes := setOpt req.completionNotes a.completionNotes
    rating := setOpt req.rating a.rating
    feedback := setOpt req.feedback a.feedback }

/-- `!req.body.actualDuration` — absent, and also `0`, are falsy in JS. -/
def reqActualDurationFalsy (req : UpdateRequest) : Bool :=
  match req.actualDuration with
  | none => true
  | some d => decide (d = 0)

/-- The `req.body.status === "completed" && !req.body.actualDuration` block:
derive `actualDuration` from the (already updated) interval. -/
def autoSetActualDuration (a : Appointment) (req : UpdateRequest) : Appointment :=
  if req.status = some Status.completed ∧ reqActualDurationFalsy req = true then
    { a with actualDuration := some (msToMinutesRounded (a.endTime - a.startTime)) }
  else a

/-- The `if (req.body.startTime || req.body.endTime)` block of the update route:
compute the effective interval (absent field falls back to the stored value),
require non-admin start times to be in the future, and re-run
`checkTechnicianAvailability` excluding this appointment's own id. -/
def updateTimeCheck (db : DB) (actor : Actor) (now : Int) (a : Appointment)
    (req : UpdateRequest) : Except UpdateError Unit :=
  if (req.startTime.isSome || req.endTime.isSome) = true then
    let newStartTime := req.startTime.getD a.startTime
    let newEndTime := req.endTime.getD a.endTime
    if actor.role ≠ Role.admin ∧ newStartTime < now then
      Except.error UpdateError.startTimeNotFuture
    else
      match checkTechnicianAvailability db a.technician newStartTime newEndTime (some a.id) with
      | Except.error e => Except.error (UpdateError.check e)
      | Except.ok _ => Except.ok ()
  else Except.ok ()

/-- Writing a modified document back to the collection (the route mutates the
found document and saves it). -/
def replaceAppointment (db : DB) (appointmentId : Nat) (updated : Appointment) : DB :=
  { users := db.users
    appointments := db.appointments.map fun a =>
      if a.id = appointmentId then updated else a }

/-- `PUT /:appointmentId` (update appointment): load, check access, reject
non-admin updates of completed / canceled appointments, run the time check when
a time field is present, apply the allow-listed fields, auto-derive
`actualDuration` on completion, and save (schema validation runs again). -/
def updateAppointment (db : DB) (actor : Actor) (now : Int) (appointmentId : Nat)
    (req : UpdateRequest) : Except UpdateError (DB × Appointment) :=
  match findAppointment db appointmentId with
  | none => Except.error UpdateError.notFound
  | some appointment =>
    if hasAccess actor appointment = false then
      Except.error UpdateError.accessDenied
    else if actor.role ≠ Role.admin ∧
        (appointment.status = Status.completed ∨ appointment.status = Status.canceled) then
      Except.error UpdateError.immutableState
    else
      match updateTimeCheck db actor now appointment req with
      | Except.error e => Except.error e
      | Except.ok _ =>
        let updated := autoSetActualDuration (applyUpdates appointment req) req
        if validateAppointment updated then
          Except.ok (replaceAppointment db appointmentId updated, updated)
        else
          Except.error UpdateError.validationFailed

inductive CancelError
  | notFound
  | accessDenied
  | alreadyCanceled
  | cancellationWindowExpired
deriving DecidableEq, Repr

/-- `req.body.cancellationReason || "No reason provided"` — the empty string is
falsy, so it also falls back to the placeholder. -/
def cancellationReasonOrDefault (reason : Option String) : String :=
  match reason with
  | none => "No reason provided"
  | some r => if r = "" then "No reason provided" else r

/-- `PATCH /:appointmentId/cancel`: load, check access, reject if already
canceled, enforce the 24-hour window (`now > startTime - 24h` rejects) for
non-admin actors, then write only status / cancellationReason / canceledAt /
canceledBy with `runValidators: false` (hence no schema validation here). -/
def cancelAppointment (db : DB) (actor : Actor) (now : Int) (appointmentId : Nat)
    (reason : Option String) : Except CancelError (DB × Appointment) :=
  match findAppointment db appointmentId with
  | none => Except.error CancelError.notFound
  | some appointment =>
    if hasAccess actor appointment = false then
      Except.error CancelError.accessDenied
    else if appointment.status = Status.canceled then
      Except.error CancelError.alreadyCanceled
    else if actor.role ≠ Role.admin ∧ now > appointment.startTime - 86400000 then
      Except.error CancelError.cancellationWindowExpired
    else
      let updated := { appointment with
        status := Status.canceled
        cancellationReason := some (cancellationReasonOrDefault reason)
        canceledAt := some now
        canceledBy := some actor.userId }
      Except.ok (replaceAppointment db appointmentId updated, updated)

/-! ## Availability slot calculator (`GET /:technicianId/availability`) -/

/-- Working hours of the availability route:
`["09:00", "10:00", ..., "16:00"]`. -/
def workingHours : List String :=
  ["09:00", "10:00", "11:00", "12:00", "13:00", "14:00", "15:00", "16:00"]

/-- `hour.toString().padStart(2, "0") + ":00"`. -/
def hourLabel (hour : Nat) : String :=
  (if hour < 10 then "0" ++ toString hour else toString hour) ++ ":00"

/-- `Date.prototype.getUTCHours` on a nonnegative epoch-millisecond timestamp. -/
def getUTCHours (t : Nat) : Nat := t / 3600000 % 24

/-- `Date.prototype.getUTCMinutes` on a nonnegative epoch-millisecond timestamp. -/
def getUTCMinutes (t : Nat) : Nat := t / 60000 % 60

/-- The marking loop of the availability route,
`for (let hour = startHour; hour <= (endMinutes > 0 ? endHour : endHour - 1); hour++)`,
as the set of visited hours: `startHour ≤ h ≤ upper` with the upper bound taken
in `Int` because `endHour - 1` can be `-1` in JS. The loop can only visit hours
in `[0, 23]` (`startHour ≥ 0` and `upper ≤ 23`), so `List.range 24` covers it. -/
def bookedHoursOfAppointment (startTime endTime : Nat) : List Nat :=
  let startHour := getUTCHours startTime
  let endHour := getUTCHours endTime
  let endMinutes := getUTCMinutes endTime
  let upper : Int := if endMinutes > 0 then (endHour : Int) else (endHour : Int) - 1
  (List.range 24).filter fun h => decide (startHour ≤ h) && decide ((h : Int) ≤ upper)

/-- Membership in the route's `bookedSlots` set: some fetched appointment
(given by its `(startTime, endTime)` pair) marks the working-hour slot. -/
def slotIsBooked (appointments : List (Nat × Nat)) (slot : String) : Bool :=
  appointments.any fun ap =>
    (bookedHoursOfAppointment ap.1 ap.2).any fun h => decide (hourLabel h = slot)

/-- `Array.from(bookedSlots)` restricted to membership semantics: the booked
working-hour slots in working-hour order. -/
def bookedSlotsList (appointments : List (Nat × Nat)) : List String :=
  workingHours.filter fun slot => slotIsBooked appointments slot

/-- `workingHours.filter((slot) => !bookedSlots.has(slot))`. -/
def availableSlotsList (appointments : List (Nat × Nat)) : List String :=
  workingHours.filter fun slot => !(slotIsBooked appointments slot)

/-- The `$or` day-intersection filter of the availability route's
`Appointment.find`: start within `[startOfDay, endOfDay]`, or end within it, or
`startTime ≤ startOfDay ∧ endTime ≥ endOfDay`. -/
def fetchDayCond (dayStart dayEnd s e : Int) : Bool :=
  (decide (dayStart ≤ s) && decide (s ≤ dayEnd))
    || (decide (dayStart ≤ e) && decide (e ≤ dayEnd))
    || (decide (s ≤ dayStart) && decide (e ≥ dayEnd))

/-- Modelled from the spec: "an appointment intersects the day if
`start <= dayEnd AND end >= dayStart`" — the single-predicate form the
day-intersection fetch is claimed to be equivalent to. -/
def specIntersectsDay (dayStart dayEnd s e : Int) : Bool :=
  decide (s ≤ dayEnd) && decide (e ≥ dayStart)

/-! ## The no-double-booking invariant and checked operation sequences -/

/-- The global invariant: no two active (status outside
{canceled, completed}) appointments of one technician have overlapping
half-open `[startTime, endTime)` intervals. Distinct documents are told apart
by id (document ids are unique in the store). -/
def NoDoubleBooking (db : DB) : Prop :=
  ∀ a ∈ db.appointments, ∀ b ∈ db.appointments,
    a.id ≠ b.id → a.technician = b.technician →
    statusNotCanceledCompleted a.status = true →
    statusNotCanceledCompleted b.status = true →
    ¬(a.startTime < b.endTime ∧ b.startTime < a.endTime)

/-- States reachable by sequences of create and update operations that each ran
and passed `checkTechnicianAvailability`: every successful create (which always
runs the check; the store assigns the new document a fresh id), and every
successful update whose body contains `startTime` or `endTime` — exactly the
updates that invoke the check. -/
inductive ReachableByCheckedOps : DB → DB → Prop
  | refl (db : DB) : ReachableByCheckedOps db db
  | createStep {db0 db1 db2 : DB} {created : Appointment}
      (newId clientId : Nat) (req : CreateRequest) :
      ReachableByCheckedOps db0 db1 →
      (∀ b ∈ db1.appointments, b.id ≠ newId) →
      createAppointment db1 newId clientId req = Except.ok (db2, created) →
      ReachableByCheckedOps db0 db2
  | updateStep {db0 db1 db2 : DB} {updated : Appointment}
      (actor : Actor) (now : Int) (appointmentId : Nat) (req : UpdateRequest) :
      ReachableByCheckedOps db0 db1 →
      (req.startTime.isSome || req.endTime.isSome) = true →
      updateAppointment db1 actor now appointmentId req = Except.ok (db2, updated) →
      ReachableByCheckedOps db0 db2

end DernBackend

deriving instance DecidableEq for Except

namespace DernBackend

instance (db : DB) : Decidable (NoDoubleBooking db) := by
  unfold NoDoubleBooking; infer_instance

/-! ## Concrete fixtures used by witnesses and counterexamples -/

/-- An active, available technician. -/
def wTech : User :=
  { id := 20, role := Role.technician, isActive := true,
    availability := Availability.available }

/-- A store with one available technician and no appointments. -/
def wdb0 : DB := { users := [wTech], appointments := [] }

/-- A one-hour booking request with no supplied duration. -/
def wCreateReq : CreateRequest :=
  { technicianId := 20, startTime := 0, endTime := 3600000, notes := none,
    serviceType := ServiceType.repair, priority := none, estimatedDuration := none }

/-- The document the create route persists for `wCreateReq`. -/
def wAppt : Appointment := newAppointmentDoc 1 10 wCreateReq

/-- The store after the create of `wAppt` succeeds. -/
def wdb1 : DB := { users := [wTech], appointments := [wAppt] }

/-- A 09:00–10:00 booking request. -/
def wCreateReqA : CreateRequest :=
  { technicianId := 20, startTime := 32400000, endTime := 36000000, notes := none,
    serviceType := ServiceType.repair, priority := none, estimatedDuration := none }

/-- A 10:00–11:00 booking request, touching the end of `wCreateReqA`. -/
def wCreateReqB : CreateRequest :=
  { technicianId := 20, startTime := 36000000, endTime := 39600000, notes := none,
    serviceType := ServiceType.repair, priority := none, estimatedDuration := none }

/-- A stored appointment in the terminal (per the spec) `no-show` state. -/
def c3Appt : Appointment :=
  { id := 1, client := 10, technician := 20, startTime := 0, endTime := 3600000,
    status := Status.noShow, serviceType := ServiceType.repair, priority := Priority.medium,
    estimatedDuration := some 60, actualDuration := none, cost := none, notes := none,
    cancellationReason := none, completionNotes := none, rating := none, feedback := none,
    canceledAt := none, canceledBy := none }

def c3Db : DB := { users := [wTech], appointments := [c3Appt] }

/-- The appointment's own client — a non-administrative actor with access. -/
def c3Actor : Actor := { userId := 10, role := Role.customer }

/-- An update request touching only `notes`. -/
def c3Req : UpdateRequest :=
  { startTime := none, endTime := none, notes := some "updated note", serviceType := none,
    priority := none, status := none, estimatedDuration := none, actualDuration := none,
    cost := none, cancellationReason := none, completionNotes := none, rating := none,
    feedback := none }

/-- A stored appointment in the `completed` state. -/
def c3cAppt : Appointment :=
  { id := 1, client := 10, technician := 20, startTime := 0, endTime := 3600000,
    status := Status.completed, serviceType := ServiceType.repair, priority := Priority.medium,
    estimatedDuration := some 60, actualDuration := some 60, cost := none, notes := none,
    cancellationReason := none, completionNotes := none, rating := none, feedback := none,
    canceledAt := none, canceledBy := none }

def c3cDb : DB := { users := [wTech], appointments := [c3cAppt] }

/-- A scheduled appointment starting 23 hours after time 0. -/
def c5Appt : Appointment :=
  { id := 1, client := 10, technician := 20, startTime := 82800000, endTime := 86400000,
    status := Status.scheduled, serviceType := ServiceType.repair, priority := Priority.medium,
    estimatedDuration := some 60, actualDuration := none, cost := none, notes := none,
    cancellationReason := none, completionNotes := none, rating := none, feedback := none,
    canceledAt := none, canceledBy := none }

def c5Db : DB := { users := [wTech], appointments := [c5Appt] }

/-- The appointment's client — a non-administrative actor with access. -/
def c5Customer : Actor := { userId := 10, role := Role.customer }

/-- An administrative actor. -/
def cAdmin : Actor := { userId := 99, role := Role.admin }

/-- A canceled appointment at 0–3600000. -/
def c6Canceled : Appointment :=
  { id := 1, client := 10, technician := 20, startTime := 0, endTime := 3600000,
    status := Status.canceled, serviceType := ServiceType.repair, priority := Priority.medium,
    estimatedDuration := some 60, actualDuration := none, cost := none, notes := none,
    cancellationReason := some "No reason provided", completionNotes := none, rating := none,
    feedback := none, canceledAt := some 0, canceledBy := some 10 }

/-- A scheduled appointment over the same interval, created after the cancellation. -/
def c6Scheduled : Appointment :=
  { id := 2, client := 11, technician := 20, startTime := 0, endTime := 3600000,
    status := Status.scheduled, serviceType := ServiceType.repair, priority := Priority.medium,
    estimatedDuration := some 60, actualDuration := none, cost := none, notes := none,
    cancellationReason := none, completionNotes := none, rating := none, feedback := none,
    canceledAt := none, canceledBy := none }

def c6Db : DB := { users := [wTech], appointments := [c6Canceled, c6Scheduled] }

/-- Create request for 2024-01-01T09:00:00Z – 2024-01-01T10:30:00Z (epoch ms),
with no supplied duration. -/
def c8Req : CreateRequest :=
  { technicianId := 20, startTime := 1704099600000, endTime := 1704105000000, notes := none,
    serviceType := ServiceType.consultation, priority := none, estimatedDuration := none }

/-- The document the create route persists for `c8Req`. -/
def c8Appt : Appointment := newAppointmentDoc 5 10 c8Req

def c8Db : DB := { users := [wTech], appointments := [c8Appt] }

/-- A ten-minute booking request with no supplied duration. -/
def c10Req : CreateRequest :=
  { technicianId := 20, startTime := 0, endTime := 600000, notes := none,
    serviceType := ServiceType.repair, priority := none, estimatedDuration := none }

/-! ## Helper lemmas -/

lemma checkOk_filter_nil {db : DB} {tid : Nat} {s e : Int} {ex : Option Nat} {t : User}
    (h : checkTechnicianAvailability db tid s e ex = Except.ok t) :
    db.appointments.filter (conflictMatches tid s e ex) = [] := by
  unfold checkTechnicianAvailability at h
  split at h
  · exact Except.noConfusion h
  · split at h
    · exact Except.noConfusion h
    · split at h
      · assumption
      · exact Except.noConfusion h

lemma createAppointment_ok {db : DB} {newId clientId : Nat} {req : CreateRequest}
    {db' : DB} {a : Appointment}
    (h : createAppointment db newId clientId req = Except.ok (db', a)) :
    a = newAppointmentDoc newId clientId req ∧
    db' = { users := db.users, appointments := a :: db.appointments } ∧
    db.appointments.filter
      (conflictMatches req.technicianId req.startTime req.endTime none) = [] := by
  unfold createAppointment at h
  split at h
  · exact Except.noConfusion h
  next t hc =>
    dsimp only [] at h
    split at h
    · injection h with h1
      injection h1 with hdb ha
      subst hdb; subst ha
      exact ⟨rfl, rfl, checkOk_filter_nil hc⟩
    · exact Except.noConfusion h

lemma conflictMatches_false_no_overlap {tid : Nat} {s e : Int} {ex : Option Nat}
    {b : Appointment}
    (h : conflictMatches tid s e ex b = false)
    (htech : b.technician = tid)
    (hstatus : statusNotCanceledCompleted b.status = true)
    (hex : ∀ x, ex = some x → b.id ≠ x) :
    ¬(b.startTime < e ∧ s < b.endTime) := by
  intro hov
  unfold conflictMatches at h
  rcases ex with _ | x
  · simp [htech, hstatus, hov.1, hov.2] at h
  · have hbx : b.id ≠ x := hex x rfl
    simp [htech, hstatus, hov.1, hov.2, hbx] at h

lemma filter_nil_all_false {l : List Appointment} {p : Appointment → Bool}
    (h : l.filter p = []) : ∀ b ∈ l, p b = false := by
  intro b hb
  by_contra hpb
  have hpb' : p b = true := by
    cases hpbv : p b
    · exact absurd hpbv hpb
    · rfl
  have hmem : b ∈ l.filter p := List.mem_filter.mpr ⟨hb, hpb'⟩
  rw [h] at hmem
  exact absurd hmem (List.not_mem_nil b)

/-- A successful create prepends the new scheduled document, and its interval
passed the conflict query against every stored appointment. -/
lemma create_preserves_ndb {db db' : DB} {newId clientId : Nat} {req : CreateRequest}
    {a : Appointment}
    (hinv : NoDoubleBooking db)
    (h : createAppointment db newId clientId req = Except.ok (db', a)) :
    NoDoubleBooking db' := by
  obtain ⟨ha, hdb, hfilter⟩ := createAppointment_ok h
  have hall := filter_nil_all_false hfilter
  intro x hx y hy hne htech hxact hyact
  rw [hdb] at hx hy
  dsimp only [] at hx hy
  have hatech : a.technician = req.technicianId := by rw [ha]; rfl
  have hastart : a.startTime = req.startTime := by rw [ha]; rfl
  have haend : a.endTime = req.endTime := by rw [ha]; rfl
  rcases List.mem_cons.mp hx with rfl | hx'
  · rcases List.mem_cons.mp hy with rfl | hy'
    · exact absurd rfl hne
    · have hyt : y.technician = req.technicianId := by rw [← htech, hatech]
      have hno := conflictMatches_false_no_overlap (hall y hy') hyt hyact
        (fun z hz0 => Option.noConfusion hz0)
      intro hov
      rw [hastart] at hov
      rw [haend] at hov
      exact hno ⟨hov.2, hov.1⟩
  · rcases List.mem_cons.mp hy with rfl | hy'
    · have hxt : x.technician = req.technicianId := by rw [htech, hatech]
      have hno := conflictMatches_false_no_overlap (hall x hx') hxt hxact
        (fun z hz0 => Option.noConfusion hz0)
      intro hov
      rw [hastart] at hov
      rw [haend] at hov
      exact hno ⟨hov.1, hov.2⟩
    · exact hinv x hx' y hy' hne htech hxact hyact

lemma updateAppointment_ok {db : DB} {actor : Actor} {now : Int} {appointmentId : Nat}
    {req : UpdateRequest} {db' : DB} {u : Appointment}
    (h : updateAppointment db actor now appointmentId req = Except.ok (db', u)) :
    ∃ a, findAppointment db appointmentId = some a ∧
      u = autoSetActualDuration (applyUpdates a req) req ∧
      db' = replaceAppointment db appointmentId u ∧
      updateTimeCheck db actor now a req = Except.ok () := by
  unfold updateAppointment at h
  split at h
  · exact Except.noConfusion h
  next a hfind =>
    refine ⟨a, hfind, ?_⟩
    split at h
    · exact Except.noConfusion h
    · split at h
      · exact Except.noConfusion h
      · split at h
        · exact Except.noConfusion h
        next u0 htc =>
          dsimp only [] at h
          split at h
          · injection h with h1
            injection h1 with hdb hu
            subst hdb; subst hu
            exact ⟨rfl, rfl, by cases u0; exact htc⟩
          · exact Except.noConfusion h

lemma updateTimeCheck_ok_filter {db : DB} {actor : Actor} {now : Int} {a : Appointment}
    {req : UpdateRequest}
    (ht : (req.startTime.isSome || req.endTime.isSome) = true)
    (h : updateTimeCheck db actor now a req = Except.ok ()) :
    db.appointments.filter
      (conflictMatches a.technician (req.startTime.getD a.startTime)
        (req.endTime.getD a.endTime) (some a.id)) = [] := by
  unfold updateTimeCheck at h
  rw [if_pos ht] at h
  dsimp only [] at h
  split at h
  · exact Except.noConfusion h
  · split at h
    · exact Except.noConfusion h
    next t hc => exact checkOk_filter_nil hc

/-- The document written by the update route keeps the stored id and technician
and carries the effective interval the time check validated. -/
lemma updatedDoc_fields (a : Appointment) (req : UpdateRequest) :
    (autoSetActualDuration (applyUpdates a req) req).id = a.id ∧
    (autoSetActualDuration (applyUpdates a req) req).technician = a.technician ∧
    (autoSetActualDuration (applyUpdates a req) req).startTime = req.startTime.getD a.startTime ∧
    (autoSetActualDuration (applyUpdates a req) req).endTime = req.endTime.getD a.endTime := by
  unfold autoSetActualDuration applyUpdates
  split
  · exact ⟨rfl, rfl, rfl, rfl⟩
  · exact ⟨rfl, rfl, rfl, rfl⟩

lemma update_preserves_ndb {db db' : DB} {actor : Actor} {now : Int} {appointmentId : Nat}
    {req : UpdateRequest} {u : Appointment}
    (hinv : NoDoubleBooking db)
    (ht : (req.startTime.isSome || req.endTime.isSome) = true)
    (h : updateAppointment db actor now appointmentId req = Except.ok (db', u)) :
    NoDoubleBooking db' := by
  obtain ⟨a, hfind, hu, hdb, htc⟩ := updateAppointment_ok h
  have haid : a.id = appointmentId := by
    have hmem := List.find?_some hfind
    exact of_decide_eq_true hmem
  have hfilter := updateTimeCheck_ok_filter ht htc
  have hall := filter_nil_all_false hfilter
  obtain ⟨huid, hutech, hustart, huend⟩ := hu ▸ updatedDoc_fields a req
  intro x hx y hy hne htech hxact hyact
  rw [hdb] at hx hy
  unfold replaceAppointment at hx hy
  dsimp only [] at hx hy
  rcases List.mem_map.mp hx with ⟨bx, hbx, hfx⟩
  rcases List.mem_map.mp hy with ⟨yb, hyb, hfy⟩
  by_cases exb : bx.id = appointmentId
  · rw [if_pos exb] at hfx
    by_cases eyb : yb.id = appointmentId
    · rw [if_pos eyb] at hfy
      rw [← hfx, ← hfy] at hne
      exact absurd rfl hne
    · rw [if_neg eyb] at hfy
      subst hfx; subst hfy
      have hyt : yb.technician = a.technician := by rw [← htech]; exact hutech
      have hyid : yb.id ≠ a.id := by rw [haid]; exact eyb
      have hno := conflictMatches_false_no_overlap (hall yb hyb) hyt hyact
        (fun z hz => by injection hz with hz'; rw [← hz']; exact hyid)
      intro hov
      rw [hustart] at hov
      rw [huend] at hov
      exact hno ⟨hov.2, hov.1⟩
  · rw [if_neg exb] at hfx
    by_cases eyb : yb.id = appointmentId
    · rw [if_pos eyb] at hfy
      subst hfx; subst hfy
      have hxt : bx.technician = a.technician := htech.trans hutech
      have hxid : bx.id ≠ a.id := by rw [haid]; exact exb
      have hno := conflictMatches_false_no_overlap (hall bx hbx) hxt hxact
        (fun z hz => by injection hz with hz'; rw [← hz']; exact hxid)
      intro hov
      rw [hustart] at hov
      rw [huend] at hov
      exact hno ⟨hov.1, hov.2⟩
    · rw [if_neg eyb] at hfy
      subst hfx; subst hfy
      exact hinv bx hbx yb hyb hne htech hxact hyact

/-- Errors propagated out of the time-check block are never `immutableState`. -/
lemma updateTimeCheck_error_form {db : DB} {actor : Actor} {now : Int} {a : Appointment}
    {req : UpdateRequest} {e : UpdateError}
    (h : updateTimeCheck db actor now a req = Except.error e) :
    e ≠ UpdateError.immutableState := by
  unfold updateTimeCheck at h
  split at h
  · dsimp only [] at h
    split at h
    · injection h with h'
      subst h'
      intro hc
      exact UpdateError.noConfusion hc
    · split at h
      · injection h with h'
        subst h'
        intro hc
        exact UpdateError.noConfusion hc
      · exact Except.noConfusion h
  · exact Except.noConfusion h

/-! ## Claim theorems -/

/-- C1. No-double-booking invariant: starting from any store satisfying the
invariant, after any sequence of create and update operations that each
individually ran and passed the conflict check (`checkTechnicianAvailability`)
— every create, and every update whose body has a `startTime` or `endTime` —
no two of a technician's appointments whose status is outside
{canceled, completed} have overlapping `[startTime, endTime)` intervals.
Sequential execution only; the concurrent check-then-write race is out of
scope, as is any update that never invokes the check. -/
theorem no_double_booking_invariant {db0 db : DB}
    (hinv : NoDoubleBooking db0) (hreach : ReachableByCheckedOps db0 db) :
    NoDoubleBooking db := by
  induction hreach with
  | refl => exact hinv
  | createStep newId clientId req hr hfresh hok ih => exact create_preserves_ndb ih hok
  | updateStep actor now appointmentId req hr ht hok ih => exact update_preserves_ndb ih ht hok

/-- C1 witness: the empty store satisfies the invariant and so does the store
reached by one successful create of a one-hour appointment. -/
theorem no_double_booking_invariant_witness : NoDoubleBooking wdb1 :=
  no_double_booking_invariant (by decide)
    (@ReachableByCheckedOps.createStep wdb0 wdb0 wdb1 wAppt 1 10 wCreateReq
      (ReachableByCheckedOps.refl wdb0) (by decide) (by decide))

/-- C2. The conflict check treats an existing appointment (matching technician,
active status, no exclusion) as conflicting exactly when
`existing.start < candidate.end AND candidate.start < existing.end`, with
strict inequalities; the overlap predicate is symmetric; an appointment ending
at time `t` never conflicts with a candidate interval starting at `t`; and two
touching appointments (09:00–10:00 and 10:00–11:00) for the same technician can
both be created. -/
theorem conflict_overlap_predicate :
    (∀ (a : Appointment) (tid : Nat) (s e : Int),
        a.technician = tid → statusNotCanceledCompleted a.status = true →
        (conflictMatches tid s e none a = true ↔ (a.startTime < e ∧ s < a.endTime)))
    ∧ (∀ aS aE bS bE : Int, ((aS < bE ∧ bS < aE) ↔ (bS < aE ∧ aS < bE)))
    ∧ (∀ (a : Appointment) (tid : Nat) (e : Int),
        conflictMatches tid a.endTime e none a = false)
    ∧ ((match createAppointment wdb0 2 10 wCreateReqA with
        | Except.ok (db1, _) => (createAppointment db1 3 10 wCreateReqB).isOk
        | Except.error _ => false) = true) := by
  refine ⟨?_, ?_, ?_, by decide⟩
  · intro a tid s e htech hstatus
    unfold conflictMatches
    simp [htech, hstatus]
  · intro aS aE bS bE
    constructor
    · intro h; exact ⟨h.2, h.1⟩
    · intro h; exact ⟨h.2, h.1⟩
  · intro a tid e
    unfold conflictMatches
    simp

/-- C2 witness: the overlap characterization instantiated at a concrete
appointment and candidate interval. -/
theorem conflict_overlap_predicate_witness :
    conflictMatches 20 0 3600000 none wAppt = true ↔
      (wAppt.startTime < 3600000 ∧ (0 : Int) < wAppt.endTime) :=
  conflict_overlap_predicate.1 wAppt 20 0 3600000 rfl (by decide)

/-- C3 counterexample: the claim says every non-administrative update of an
appointment in a terminal state — which per the spec includes `no-show` — is
rejected with `ImmutableState`; but the route only guards
`["completed", "canceled"]`, so a non-admin update of a `no-show` appointment
succeeds. -/
theorem noshow_update_not_rejected :
    c3Appt.status = Status.noShow ∧ c3Actor.role ≠ Role.admin ∧
    (updateAppointment c3Db c3Actor 0 1 c3Req).isOk = true ∧
    updateAppointment c3Db c3Actor 0 1 c3Req ≠ Except.error UpdateError.immutableState := by
  refine ⟨rfl, by decide, by decide, by decide⟩

/-- C3 (amended). For every stored appointment whose status is `completed` or
`canceled`, every non-administrative update request by an actor with access is
rejected with `ImmutableState` (and nothing is written); `no-show` is not
subject to this rejection, and an administrative update is never rejected with
`ImmutableState`. -/
theorem terminal_state_immutability_amended (db : DB) (actor : Actor) (now : Int)
    (appointmentId : Nat) (req : UpdateRequest) (a : Appointment)
    (hfind : findAppointment db appointmentId = some a)
    (hacc : hasAccess actor a = true) :
    (actor.role ≠ Role.admin →
      (a.status = Status.completed ∨ a.status = Status.canceled) →
      updateAppointment db actor now appointmentId req = Except.error UpdateError.immutableState)
    ∧ (actor.role = Role.admin →
      updateAppointment db actor now appointmentId req ≠ Except.error UpdateError.immutableState) := by
  constructor
  · intro hrole hterm
    unfold updateAppointment
    rw [hfind]
    dsimp only []
    rw [if_neg (by simp [hacc])]
    rw [if_pos ⟨hrole, hterm⟩]
  · intro hrole
    unfold updateAppointment
    rw [hfind]
    dsimp only []
    rw [if_neg (by simp [hacc])]
    rw [if_neg (fun hc => hc.1 hrole)]
    rcases htc : updateTimeCheck db actor now a req with e | u
    · intro hcon
      injection hcon with h'
      exact updateTimeCheck_error_form htc h'
    · dsimp only []
      split
      · intro hcon
        exact Except.noConfusion hcon
      · intro hcon
        injection hcon with h'
        exact UpdateError.noConfusion h'

/-- C3 witness: a customer's notes-only update of a completed appointment is
rejected with `ImmutableState`. -/
theorem terminal_state_immutability_witness :
    updateAppointment c3cDb c3Actor 0 1 c3Req = Except.error UpdateError.immutableState :=
  (terminal_state_immutability_amended c3cDb c3Actor 0 1 c3Req c3cAppt (by decide)
    (by decide)).1 (by decide) (Or.inl rfl)

/-- C4 counterexample: an appointment spanning the whole queried UTC day
(day 1; start 82800000 = day 0 23:00, end 176400000 = day 2 01:00) contains the
09:00 slot start (118800000) in `[start, end)`, so the claim marks the slot
booked for every fetched appointment; but the route extracts only hour-of-day
components, its loop runs from hour 23 up to hour 0, and it marks nothing. -/
theorem spanning_appointment_slots_unmarked :
    (82800000 ≤ 118800000 ∧ 118800000 < 176400000) ∧
    118800000 = 86400000 * 1 + 3600000 * 9 ∧
    "09:00" ∈ workingHours ∧
    slotIsBooked [(82800000, 176400000)] "09:00" = false ∧
    bookedHoursOfAppointment 82800000 176400000 = [] := by decide

/-- C4 (amended). For an appointment whose start and end both lie within the
queried UTC day `d` and whose end is minute-aligned, slot hour `h` is marked
booked exactly when the slot's hour interval `[h:00, h+1:00)` overlaps
`[start, end)` — i.e. `start < slotEnd ∧ slotStart < end`. This matches the
claimed rule (slot start in `[start, end)`, with the end-minute edge rule) when
the start is hour-aligned, as in the spec's examples: 09:00–11:30 books
{09:00, 10:00, 11:00} and 09:00–11:00 books {09:00, 10:00}. For appointments
that start before the day or span it, the hour-of-day extraction makes the
route mark slots incorrectly, as the counterexample shows. -/
theorem slot_marking_amended :
    (∀ (d h s e : Nat),
      86400000 * d ≤ s → s < e → e < 86400000 * (d + 1) →
      e % 60000 = 0 → h < 24 →
      (h ∈ bookedHoursOfAppointment s e ↔
        (s < 86400000 * d + 3600000 * (h + 1) ∧ 86400000 * d + 3600000 * h < e)))
    ∧ bookedSlotsList [(32400000, 41400000)] = ["09:00", "10:00", "11:00"]
    ∧ availableSlotsList [(32400000, 41400000)] =
        ["12:00", "13:00", "14:00", "15:00", "16:00"]
    ∧ bookedSlotsList [(32400000, 39600000)] = ["09:00", "10:00"] := by
  refine ⟨?_, by decide, by decide, by decide⟩
  intro d h s e hds hse hde hdvd hh
  unfold bookedHoursOfAppointment getUTCHours getUTCMinutes
  simp only [List.mem_filter, List.mem_range, Bool.and_eq_true, decide_eq_true_eq]
  constructor
  · rintro ⟨hh24, hsh, hup⟩
    split at hup
    · next hm => omega
    · next hm => omega
  · rintro ⟨h1, h2⟩
    refine ⟨hh, ?_, ?_⟩
    · omega
    · split
      · next hm => omega
      · next hm => omega

/-- C4 witness: the slot characterization instantiated at day 0, hour 11, for
the 09:00–11:30 appointment. -/
theorem slot_marking_amended_witness :
    11 ∈ bookedHoursOfAppointment 32400000 41400000 ↔
      (32400000 < 86400000 * 0 + 3600000 * (11 + 1) ∧
        86400000 * 0 + 3600000 * 11 < 41400000) :=
  slot_marking_amended.1 0 11 32400000 41400000 (by decide) (by decide) (by decide)
    (by decide) (by decide)

/-- C5. Cancellation window: for a non-administrative actor with access to a
non-canceled appointment, the cancel succeeds exactly when
`now ≤ startTime - 24h`, and otherwise fails with
`CancellationWindowExpired` (writing nothing); an administrative actor's
cancel of a non-canceled appointment is never rejected by the window check. -/
theorem cancellation_window (db : DB) (actor : Actor) (now : Int) (appointmentId : Nat)
    (reason : Option String) (a : Appointment)
    (hfind : findAppointment db appointmentId = some a)
    (hacc : hasAccess actor a = true)
    (hst : a.status ≠ Status.canceled) :
    (actor.role ≠ Role.admin →
      (((cancelAppointment db actor now appointmentId reason).isOk = true ↔
          now ≤ a.startTime - 86400000)
        ∧ (now > a.startTime - 86400000 →
            cancelAppointment db actor now appointmentId reason =
              Except.error CancelError.cancellationWindowExpired)))
    ∧ (actor.role = Role.admin →
        (cancelAppointment db actor now appointmentId reason).isOk = true) := by
  unfold cancelAppointment
  rw [hfind]
  dsimp only []
  rw [if_neg (by simp [hacc])]
  rw [if_neg hst]
  constructor
  · intro hrole
    by_cases hw : now > a.startTime - 86400000
    · rw [if_pos ⟨hrole, hw⟩]
      constructor
      · simp only [Except.isOk]
        constructor
        · intro hc
          exact Bool.noConfusion hc
        · intro hc
          omega
      · intro _
        rfl
    · rw [if_neg (fun hc => hw hc.2)]
      constructor
      · simp only [Except.isOk]
        constructor
        · intro _
          omega
        · intro _
          rfl
      · intro hcon
        exact absurd hcon hw
  · intro hrole
    rw [if_neg (fun hc => hc.1 hrole)]
    rfl

/-- C5 witness: an appointment starting in 23 hours, canceled by the customer
at time 0, fails with `CancellationWindowExpired`; the same call by an admin
succeeds. -/
theorem cancellation_window_witness :
    (cancelAppointment c5Db c5Customer 0 1 none).isOk = false
    ∧ cancelAppointment c5Db c5Customer 0 1 none =
        Except.error CancelError.cancellationWindowExpired
    ∧ (cancelAppointment c5Db cAdmin 0 1 none).isOk = true := by
  have h := cancellation_window c5Db c5Customer 0 1 none c5Appt (by decide) (by decide)
    (by decide)
  have h2 := cancellation_window c5Db cAdmin 0 1 none c5Appt (by decide) (by decide)
    (by decide)
  refine ⟨?_, (h.1 (by decide)).2 (by decide), h2.2 rfl⟩
  rw [(h.1 (by decide)).2 (by decide)]
  rfl

/-- C6 counterexample: a store satisfying the no-double-booking invariant
(one canceled and one scheduled appointment over 0–3600000 for technician 20)
in which the same-times self-update check for the canceled appointment does
NOT pass — it reports a `SchedulingConflict` with the scheduled appointment —
refuting the claim's universal "for every stored appointment". -/
theorem self_update_conflict_when_inactive :
    NoDoubleBooking c6Db ∧
    c6Canceled ∈ c6Db.appointments ∧
    checkTechnicianAvailability c6Db c6Canceled.technician c6Canceled.startTime
        c6Canceled.endTime (some c6Canceled.id)
      = Except.error (CheckError.schedulingConflict 0 3600000) := by decide

/-- C6 (amended). For every stored appointment counted by the invariant (status
outside {canceled, completed}) in a state satisfying the no-double-booking
invariant, the conflict check on its own unchanged interval, excluding its own
id, never reports a `SchedulingConflict` — the appointment's own interval never
conflicts with itself — and it passes outright whenever the technician resolves
as active and available. -/
theorem self_exclusion_no_false_conflict (db : DB) (a : Appointment)
    (hmem : a ∈ db.appointments)
    (hact : statusNotCanceledCompleted a.status = true)
    (hinv : NoDoubleBooking db) :
    (∀ cs ce : Int,
        checkTechnicianAvailability db a.technician a.startTime a.endTime (some a.id) ≠
          Except.error (CheckError.schedulingConflict cs ce))
    ∧ (∀ t : User, findTechnician db a.technician = some t →
        t.availability = Availability.available →
        checkTechnicianAvailability db a.technician a.startTime a.endTime (some a.id) =
          Except.ok t) := by
  have hfilter : db.appointments.filter
      (conflictMatches a.technician a.startTime a.endTime (some a.id)) = [] := by
    rcases hl : db.appointments.filter
        (conflictMatches a.technician a.startTime a.endTime (some a.id)) with _ | ⟨c, cs⟩
    · rfl
    · exfalso
      have hc : c ∈ db.appointments.filter
          (conflictMatches a.technician a.startTime a.endTime (some a.id)) := by
        rw [hl]
        exact List.mem_cons_self _ _
      obtain ⟨hcmem, hcm⟩ := List.mem_filter.mp hc
      unfold conflictMatches at hcm
      simp only [Bool.and_eq_true, decide_eq_true_eq] at hcm
      obtain ⟨⟨⟨⟨hct, hcs⟩, h1⟩, h2⟩, hcid⟩ := hcm
      exact hinv c hcmem a hmem hcid hct hcs hact ⟨h1, h2⟩
  have hform : checkTechnicianAvailability db a.technician a.startTime a.endTime (some a.id)
      = (match findTechnician db a.technician with
        | none => Except.error CheckError.technicianNotFound
        | some technician =>
          if technician.availability ≠ Availability.available then
            Except.error CheckError.technicianUnavailable
          else Except.ok technician) := by
    unfold checkTechnicianAvailability
    rcases findTechnician db a.technician with _ | t
    · rfl
    · dsimp only []
      by_cases hA : t.availability ≠ Availability.available
      · rw [if_pos hA, if_pos hA]
      · rw [if_neg hA, if_neg hA, hfilter]
  constructor
  · intro cs ce
    rw [hform]
    rcases findTechnician db a.technician with _ | t
    · intro hcon
      injection hcon with h'
      exact CheckError.noConfusion h'
    · dsimp only []
      by_cases hA : t.availability ≠ Availability.available
      · rw [if_pos hA]
        intro hcon
        injection hcon with h'
        exact CheckError.noConfusion h'
      · rw [if_neg hA]
        intro hcon
        exact Except.noConfusion hcon
  · intro t hft havail
    rw [hform, hft]
    dsimp only []
    rw [if_neg (fun hc => hc havail)]

/-- C6 witness: in a store with one scheduled appointment, the same-times
self-update check passes, returning the technician. -/
theorem self_exclusion_no_false_conflict_witness :
    checkTechnicianAvailability wdb1 wAppt.technician wAppt.startTime wAppt.endTime
        (some wAppt.id) = Except.ok wTech := by
  have h := self_exclusion_no_false_conflict wdb1 wAppt (by decide) (by decide) (by decide)
  exact h.2 wTech (by decide) rfl

/-- C7. The availability route's three-case `$or` day filter is equivalent to
the single predicate `start ≤ dayEnd AND end ≥ dayStart` for every appointment
with `end > start` and every day range with `dayStart ≤ dayEnd`, including
appointments spanning the whole day. -/
theorem day_intersection_fetch_equiv (dayStart dayEnd s e : Int)
    (hday : dayStart ≤ dayEnd) (hse : s < e) :
    fetchDayCond dayStart dayEnd s e = specIntersectsDay dayStart dayEnd s e := by
  have h : (fetchDayCond dayStart dayEnd s e = true) ↔
      (specIntersectsDay dayStart dayEnd s e = true) := by
    unfold fetchDayCond specIntersectsDay
    simp only [Bool.or_eq_true, Bool.and_eq_true, decide_eq_true_eq]
    omega
  exact Bool.eq_iff_iff.mpr h

/-- C7 witness: the equivalence instantiated at day 1 and an appointment
spanning that whole day. -/
theorem day_intersection_fetch_equiv_witness :
    fetchDayCond 86400000 172799999 0 200000000 =
      specIntersectsDay 86400000 172799999 0 200000000 :=
  day_intersection_fetch_equiv 86400000 172799999 0 200000000 (by decide) (by decide)

/-- C8. Duration derivation: every successful create with no supplied
`estimatedDuration` persists `estimatedDuration = round((end - start) / 60000)`,
the interval length in minutes. -/
theorem estimated_duration_derived {db : DB} {newId clientId : Nat} {req : CreateRequest}
    {db' : DB} {a : Appointment}
    (hreq : req.estimatedDuration = none)
    (h : createAppointment db newId clientId req = Except.ok (db', a)) :
    a.estimatedDuration = some (msToMinutesRounded (req.endTime - req.startTime)) := by
  obtain ⟨ha, _, _⟩ := createAppointment_ok h
  rw [ha]
  unfold newAppointmentDoc
  rw [hreq]

/-- C8 witness: creating 2024-01-01T09:00Z – 2024-01-01T10:30Z with no supplied
duration persists `estimatedDuration = 90`. -/
theorem estimated_duration_derived_witness :
    c8Appt.estimatedDuration = some 90 := by
  have h := @estimated_duration_derived wdb0 5 10 c8Req c8Db c8Appt rfl (by decide)
  exact h.trans (by decide)

/-- C9. Idempotent-reject cancellation: a cancel request by any actor with
access to an appointment whose status is already `canceled` fails with
`AlreadyCanceled` (writing nothing), never silently succeeding. -/
theorem already_canceled_reject (db : DB) (actor : Actor) (now : Int) (appointmentId : Nat)
    (reason : Option String) (a : Appointment)
    (hfind : findAppointment db appointmentId = some a)
    (hacc : hasAccess actor a = true)
    (hst : a.status = Status.canceled) :
    cancelAppointment db actor now appointmentId reason =
      Except.error CancelError.alreadyCanceled := by
  unfold cancelAppointment
  rw [hfind]
  dsimp only []
  rw [if_neg (by simp [hacc])]
  rw [if_pos hst]

/-- C9 witness: even an admin's repeated cancel of an already-canceled
appointment is rejected with `AlreadyCanceled`. -/
theorem already_canceled_reject_witness :
    cancelAppointment c6Db cAdmin 0 1 none = Except.error CancelError.alreadyCanceled :=
  already_canceled_reject c6Db cAdmin 0 1 none c6Canceled (by decide) (by decide) rfl

/-- C10. Implicit bound on derived duration: a create with no supplied
`estimatedDuration` whose interval length rounds below 15 or above 480 minutes
fails at persistence (the schema bounds `estimatedDuration` to `[15, 480]`),
even though the conflict check succeeded. -/
theorem derived_duration_schema_bound {db : DB} {newId clientId : Nat} {req : CreateRequest}
    (hreq : req.estimatedDuration = none)
    (hck : ∃ t, checkTechnicianAvailability db req.technicianId req.startTime req.endTime none
      = Except.ok t)
    (hd : msToMinutesRounded (req.endTime - req.startTime) < 15 ∨
        480 < msToMinutesRounded (req.endTime - req.startTime)) :
    createAppointment db newId clientId req = Except.error CreateError.validationFailed := by
  obtain ⟨t, hc⟩ := hck
  have hv : validateAppointment (newAppointmentDoc newId clientId req) = false := by
    unfold validateAppointment newAppointmentDoc
    rw [hreq]
    dsimp only []
    have hnot : ¬(15 ≤ msToMinutesRounded (req.endTime - req.startTime) ∧
        msToMinutesRounded (req.endTime - req.startTime) ≤ 480) := by
      rcases hd with hlt | hgt
      · intro hcon
        exact absurd hcon.1 (by omega)
      · intro hcon
        exact absurd hcon.2 (by omega)
    simp [hnot]
  unfold createAppointment
  rw [hc]
  dsimp only []
  rw [if_neg (by simp [hv])]

/-- C10 witness: a ten-minute booking with no supplied duration passes the
conflict check but fails schema validation at persistence. -/
theorem derived_duration_schema_bound_witness :
    createAppointment wdb0 6 10 c10Req = Except.error CreateError.validationFailed :=
  derived_duration_schema_bound rfl ⟨wTech, by decide⟩ (Or.inl (by decide))

end DernBackend
